import Mathlib

/-!
A shallow embedding of the `hue-lighter` light-automation service
(`internal/services/light_automation/service.go`), its configuration model
(`internal/config`), and the shutdown event bus
(`internal/services/events/event-bus.go`), together with theorems about the
behaviour of the embedded code.

Modelling conventions:
* Instants are `Int` nanoseconds (Go `time.Time` compared with
  `Before`/`After`, durations with `time.Duration`).
* The Go map `lightStates map[string]bool` is an association list read
  through `cacheGet`, which returns `false` for a missing key exactly as a
  Go map read returns the zero value.
* Fallible network calls of the Hue client are oracles supplied to the
  embedded functions: `ok : String → Bool` tells whether a turn-on/turn-off
  command to a given light id returns a nil error, and
  `fetch : String → Option Bool` is `GetOneLightById` (`none` models a
  non-nil error, `some b` a reply whose `state.On.On` is `b`).
* A Go nil-pointer dereference panic is modelled by the result `none` of an
  `Option`-valued embedding.
-/

set_option autoImplicit false

namespace HueLighter

/-- One entry of `Config.Lights` (`internal/config/config.go`): both the
`id` and the `name` field are optional pointers in the source. -/
structure LightConfig where
  id : Option String
  name : Option String
deriving Repr, DecidableEq

/-- Field `Config.Location` (`internal/config/config.go`); the source stores
float64 coordinates, modelled as rationals. -/
structure LocationConfig where
  latitude : Rat
  longitude : Rat
deriving Repr, DecidableEq

/-- Struct `Config` (`internal/config/config.go`), restricted to the fields the
automation loop reads. -/
structure Config where
  location : LocationConfig
  lights : List LightConfig
deriving Repr, DecidableEq

/-- Function `(*Config).validate` from the config package (the function body is
reproduced in the repository README): coordinates must lie in range and
every light must have an `ID` or a `Name`. -/
def Config.validate (c : Config) : Except String Unit :=
  if c.location.latitude < -90 ∨ c.location.latitude > 90 ∨
      c.location.longitude < -180 ∨ c.location.longitude > 180 then
    Except.error "invalid location coordinates"
  else if c.lights.any (fun l => l.id.isNone && l.name.isNone) then
    Except.error "light must have either ID or Name"
  else
    Except.ok ()

/-- The `lightStates` Go map: an association list from light id to the
last believed on/off state. -/
abbrev Cache := List (String × Bool)

/-- Reading `lightStates[id]`: a missing key yields the zero value `false`,
as in Go. -/
def cacheGet : Cache → String → Bool
  | [], _ => false
  | (k, v) :: rest, id => if k = id then v else cacheGet rest id

/-- Writing `lightStates[id] = v` (first-match lookup makes prepending an
overwrite). -/
def cacheSet (c : Cache) (id : String) (v : Bool) : Cache :=
  (id, v) :: c

theorem cacheGet_cacheSet_same (c : Cache) (id : String) (v : Bool) :
    cacheGet (cacheSet c id v) id = v := by
  simp [cacheGet, cacheSet]

theorem cacheGet_cacheSet_other (c : Cache) (id k : String) (v : Bool)
    (h : id ≠ k) : cacheGet (cacheSet c id v) k = cacheGet c k := by
  simp [cacheGet, cacheSet, h]

/-- Night classification from `runAutomation` (service.go line 80):
`tickTime.Before(sunriseTime) || tickTime.After(sunsetTime)`. -/
def isNight (now sunrise sunset : Int) : Bool :=
  decide (now < sunrise) || decide (sunset < now)

/-- C4: a tick is classified as night exactly when `now < sunrise` or
`now > sunset`; when sunrise is not after sunset, the instants equal to
sunrise and to sunset are day, while sunrise minus any positive duration
and sunset plus any positive duration are night. -/
theorem night_classification_boundary (now sunrise sunset d : Int)
    (hd : 0 < d) (hday : sunrise ≤ sunset) :
    (isNight now sunrise sunset = true ↔ (now < sunrise ∨ sunset < now)) ∧
    isNight sunrise sunrise sunset = false ∧
    isNight sunset sunrise sunset = false ∧
    isNight (sunrise - d) sunrise sunset = true ∧
    isNight (sunset + d) sunrise sunset = true := by
  refine ⟨?_, ?_, ?_, ?_, ?_⟩ <;>
    simp only [isNight, Bool.or_eq_true, decide_eq_true_eq, Bool.or_eq_false_iff,
      decide_eq_false_iff_not] <;> omega

/-- Witness for C4 at sunrise `100`, sunset `200`, duration `1`. -/
theorem night_classification_boundary_witness :
    (isNight 150 100 200 = true ↔ ((150 : Int) < 100 ∨ (200 : Int) < 150)) ∧
    isNight 100 100 200 = false ∧
    isNight 200 100 200 = false ∧
    isNight (100 - 1) 100 200 = true ∧
    isNight (200 + 1) 100 200 = true :=
  night_classification_boundary 150 100 200 1 (by decide) (by decide)

/-- A command issued to the Hue client: `TurnOnLightById` / `TurnOffLightById`. -/
inductive Command where
  | turnOn (id : String)
  | turnOff (id : String)
deriving Repr, DecidableEq

/-- Method `(*Service).setLightsState` (service.go lines 91-122): iterate over the
configured lights in order; dereference `lightCfg.ID` (a nil pointer panics,
modelled by `none`); skip a light whose cached state already equals the
commanded one; otherwise issue the command and then write the commanded
value into the cache.  The source inspects the command's error only to log
it (lines 102-104 and 116-118), so the success oracle `ok` does not
influence the cache or the command trace.  The returned list holds the
issued commands in configuration order. -/
def setLightsState (turnOn : Bool) (ok : String → Bool) :
    List LightConfig → Cache → Option (Cache × List Command)
  | [], cache => some (cache, [])
  | l :: rest, cache =>
    match l.id with
    | none => none
    | some id =>
      if turnOn then
        if cacheGet cache id then
          setLightsState turnOn ok rest cache
        else
          match setLightsState turnOn ok rest (cacheSet cache id true) with
          | none => none
          | some (c, cmds) => some (c, Command.turnOn id :: cmds)
      else
        if cacheGet cache id then
          match setLightsState turnOn ok rest (cacheSet cache id false) with
          | none => none
          | some (c, cmds) => some (c, Command.turnOff id :: cmds)
        else
          setLightsState turnOn ok rest cache

/-- The command a pass with polarity `b` issues for light `id`. -/
def commandFor (b : Bool) (id : String) : Command :=
  if b then Command.turnOn id else Command.turnOff id

theorem commandFor_inj (b : Bool) (id1 id2 : String)
    (h : commandFor b id1 = commandFor b id2) : id1 = id2 := by
  cases b <;> simpa [commandFor] using h

/-- A light whose `ID` pointer is nil makes the pass panic. -/
theorem setLightsState_cons_none (b : Bool) (ok : String → Bool)
    (l : LightConfig) (rest : List LightConfig) (cache : Cache)
    (hid : l.id = none) : setLightsState b ok (l :: rest) cache = none := by
  cases b <;> simp [setLightsState, hid]

/-- Both polarities share one shape: a light whose cache already reads the
commanded value is skipped. -/
theorem setLightsState_cons_skip (b : Bool) (ok : String → Bool)
    (l : LightConfig) (rest : List LightConfig) (cache : Cache) (id : String)
    (hid : l.id = some id) (hc : cacheGet cache id = b) :
    setLightsState b ok (l :: rest) cache = setLightsState b ok rest cache := by
  cases b <;> simp [setLightsState, hid, hc]

/-- When the head light gets a command and a later light panics, the whole
pass panics. -/
theorem setLightsState_cons_cmd_none (b : Bool) (ok : String → Bool)
    (l : LightConfig) (rest : List LightConfig) (cache : Cache) (id : String)
    (hid : l.id = some id) (hc : ¬cacheGet cache id = b)
    (hrec : setLightsState b ok rest (cacheSet cache id b) = none) :
    setLightsState b ok (l :: rest) cache = none := by
  cases b <;> simp_all [setLightsState, hid]

/-- When the head light's cache read disagrees with the pass polarity, the
pass issues the command and continues on the updated cache. -/
theorem setLightsState_cons_cmd_some (b : Bool) (ok : String → Bool)
    (l : LightConfig) (rest : List LightConfig) (cache : Cache) (id : String)
    (c : Cache) (cmds : List Command)
    (hid : l.id = some id) (hc : ¬cacheGet cache id = b)
    (hrec : setLightsState b ok rest (cacheSet cache id b) = some (c, cmds)) :
    setLightsState b ok (l :: rest) cache = some (c, commandFor b id :: cmds) := by
  cases b <;> simp_all [setLightsState, hid, commandFor]

/-- The result of a pass does not depend on which commands succeed. -/
theorem setLightsState_ok_irrelevant (b : Bool) (ok1 ok2 : String → Bool)
    (lights : List LightConfig) (cache : Cache) :
    setLightsState b ok1 lights cache = setLightsState b ok2 lights cache := by
  induction lights generalizing cache with
  | nil => rfl
  | cons l rest ih =>
    cases hid : l.id with
    | none =>
      rw [setLightsState_cons_none b ok1 l rest cache hid,
        setLightsState_cons_none b ok2 l rest cache hid]
    | some id =>
      by_cases hc : cacheGet cache id = b
      · rw [setLightsState_cons_skip b ok1 l rest cache id hid hc,
          setLightsState_cons_skip b ok2 l rest cache id hid hc, ih]
      · cases hrec : setLightsState b ok1 rest (cacheSet cache id b) with
        | none =>
          rw [setLightsState_cons_cmd_none b ok1 l rest cache id hid hc hrec,
            setLightsState_cons_cmd_none b ok2 l rest cache id hid hc
              (by rw [← ih]; exact hrec)]
        | some p =>
          obtain ⟨c, cmds⟩ := p
          rw [setLightsState_cons_cmd_some b ok1 l rest cache id c cmds hid hc hrec,
            setLightsState_cons_cmd_some b ok2 l rest cache id c cmds hid hc
              (by rw [← ih]; exact hrec)]

/-- A cache read that already equals the pass polarity survives the pass:
the pass only ever writes the polarity value. -/
theorem setLightsState_get_preserved (b : Bool) (ok : String → Bool)
    (lights : List LightConfig) (cache c : Cache) (cmds : List Command)
    (id : String) (h : setLightsState b ok lights cache = some (c, cmds))
    (hget : cacheGet cache id = b) : cacheGet c id = b := by
  induction lights generalizing cache cmds with
  | nil =>
    simp only [setLightsState, Option.some.injEq, Prod.mk.injEq] at h
    exact h.1 ▸ hget
  | cons l rest ih =>
    cases hid : l.id with
    | none => rw [setLightsState_cons_none b ok l rest cache hid] at h; cases h
    | some id0 =>
      by_cases hc : cacheGet cache id0 = b
      · rw [setLightsState_cons_skip b ok l rest cache id0 hid hc] at h
        exact ih cache cmds h hget
      · cases hrec : setLightsState b ok rest (cacheSet cache id0 b) with
        | none =>
          rw [setLightsState_cons_cmd_none b ok l rest cache id0 hid hc hrec] at h
          cases h
        | some p =>
          obtain ⟨c1, cmds1⟩ := p
          rw [setLightsState_cons_cmd_some b ok l rest cache id0 c1 cmds1 hid hc hrec] at h
          simp only [Option.some.injEq, Prod.mk.injEq] at h
          obtain ⟨hcc, hcmds⟩ := h
          subst hcc
          refine ih (cacheSet cache id0 b) cmds1 hrec ?_
          by_cases hsame : id0 = id
          · rw [hsame, cacheGet_cacheSet_same]
          · rw [cacheGet_cacheSet_other _ _ _ _ hsame]; exact hget

/-- After a pass every configured light id reads the commanded value in the
cache, whether its command succeeded or not. -/
theorem setLightsState_drives_to (b : Bool) (ok : String → Bool)
    (lights : List LightConfig) (cache c : Cache) (cmds : List Command)
    (h : setLightsState b ok lights cache = some (c, cmds))
    (l : LightConfig) (hl : l ∈ lights) (id : String) (hid : l.id = some id) :
    cacheGet c id = b := by
  induction lights generalizing cache cmds with
  | nil => cases hl
  | cons l0 rest ih =>
    cases hid0 : l0.id with
    | none => rw [setLightsState_cons_none b ok l0 rest cache hid0] at h; cases h
    | some id0 =>
      by_cases hc : cacheGet cache id0 = b
      · rw [setLightsState_cons_skip b ok l0 rest cache id0 hid0 hc] at h
        rcases List.mem_cons.mp hl with rfl | hmem
        · have hsame : id0 = id := by rw [hid0] at hid; exact Option.some.inj hid
          exact setLightsState_get_preserved b ok rest cache c cmds id h (hsame ▸ hc)
        · exact ih cache cmds h hmem
      · cases hrec : setLightsState b ok rest (cacheSet cache id0 b) with
        | none =>
          rw [setLightsState_cons_cmd_none b ok l0 rest cache id0 hid0 hc hrec] at h
          cases h
        | some p =>
          obtain ⟨c1, cmds1⟩ := p
          rw [setLightsState_cons_cmd_some b ok l0 rest cache id0 c1 cmds1 hid0 hc hrec] at h
          simp only [Option.some.injEq, Prod.mk.injEq] at h
          obtain ⟨hcc, hcmds⟩ := h
          subst hcc
          rcases List.mem_cons.mp hl with rfl | hmem
          · have hsame : id0 = id := by rw [hid0] at hid; exact Option.some.inj hid
            refine setLightsState_get_preserved b ok rest _ c1 cmds1 id hrec ?_
            rw [← hsame, cacheGet_cacheSet_same]
          · exact ih (cacheSet cache id0 b) cmds1 hrec hmem

/-- A light whose cache already reads the commanded value receives no
command during the pass. -/
theorem setLightsState_skip_no_command (b : Bool) (ok : String → Bool)
    (lights : List LightConfig) (cache c : Cache) (cmds : List Command)
    (id : String) (h : setLightsState b ok lights cache = some (c, cmds))
    (hget : cacheGet cache id = b) : commandFor b id ∉ cmds := by
  induction lights generalizing cache cmds with
  | nil =>
    simp only [setLightsState, Option.some.injEq, Prod.mk.injEq] at h
    rw [← h.2]
    exact List.not_mem_nil _
  | cons l0 rest ih =>
    cases hid0 : l0.id with
    | none => rw [setLightsState_cons_none b ok l0 rest cache hid0] at h; cases h
    | some id0 =>
      by_cases hc : cacheGet cache id0 = b
      · rw [setLightsState_cons_skip b ok l0 rest cache id0 hid0 hc] at h
        exact ih cache cmds h hget
      · cases hrec : setLightsState b ok rest (cacheSet cache id0 b) with
        | none =>
          rw [setLightsState_cons_cmd_none b ok l0 rest cache id0 hid0 hc hrec] at h
          cases h
        | some p =>
          obtain ⟨c1, cmds1⟩ := p
          rw [setLightsState_cons_cmd_some b ok l0 rest cache id0 c1 cmds1 hid0 hc hrec] at h
          simp only [Option.some.injEq, Prod.mk.injEq] at h
          obtain ⟨hcc, hcmds⟩ := h
          subst hcc
          subst hcmds
          have hne : id0 ≠ id := fun he => hc (he ▸ hget)
          intro hmem
          rcases List.mem_cons.mp hmem with heq | hmem1
          · exact hne (commandFor_inj b id id0 heq).symm
          · refine ih (cacheSet cache id0 b) cmds1 hrec ?_ hmem1
            rw [cacheGet_cacheSet_other _ _ _ _ hne]; exact hget

/-- A command for `id` appears in the pass trace exactly when some
configured light carries that id and its cache read disagreed with the pass
polarity on entry. -/
theorem setLightsState_command_iff (b : Bool) (ok : String → Bool)
    (lights : List LightConfig) (cache c : Cache) (cmds : List Command)
    (id : String) (h : setLightsState b ok lights cache = some (c, cmds)) :
    commandFor b id ∈ cmds ↔
      (cacheGet cache id ≠ b ∧ ∃ l ∈ lights, l.id = some id) := by
  induction lights generalizing cache cmds with
  | nil =>
    simp only [setLightsState, Option.some.injEq, Prod.mk.injEq] at h
    simp [← h.2]
  | cons l0 rest ih =>
    cases hid0 : l0.id with
    | none => rw [setLightsState_cons_none b ok l0 rest cache hid0] at h; cases h
    | some id0 =>
      by_cases hc : cacheGet cache id0 = b
      · rw [setLightsState_cons_skip b ok l0 rest cache id0 hid0 hc] at h
        rw [ih cache cmds h]
        constructor
        · rintro ⟨hne, l, hl, hlid⟩
          exact ⟨hne, l, List.mem_cons_of_mem _ hl, hlid⟩
        · rintro ⟨hne, l, hl, hlid⟩
          rcases List.mem_cons.mp hl with rfl | hmem
          · rw [hid0] at hlid
            exact absurd (Option.some.inj hlid ▸ hc) hne
          · exact ⟨hne, l, hmem, hlid⟩
      · cases hrec : setLightsState b ok rest (cacheSet cache id0 b) with
        | none =>
          rw [setLightsState_cons_cmd_none b ok l0 rest cache id0 hid0 hc hrec] at h
          cases h
        | some p =>
          obtain ⟨c1, cmds1⟩ := p
          rw [setLightsState_cons_cmd_some b ok l0 rest cache id0 c1 cmds1 hid0 hc hrec] at h
          simp only [Option.some.injEq, Prod.mk.injEq] at h
          obtain ⟨hcc, hcmds⟩ := h
          subst hcc
          subst hcmds
          by_cases hsame : id0 = id
          · subst hsame
            constructor
            · intro _hmem
              exact ⟨hc, l0, List.mem_cons_self _ _, hid0⟩
            · intro _hr
              exact List.mem_cons_self _ _
          · have hget : cacheGet (cacheSet cache id0 b) id = cacheGet cache id :=
              cacheGet_cacheSet_other _ _ _ _ hsame
            constructor
            · intro hmem
              rcases List.mem_cons.mp hmem with heq | hmem1
              · exact absurd (commandFor_inj b id id0 heq).symm hsame
              · obtain ⟨hne, l, hl, hlid⟩ :=
                  (ih (cacheSet cache id0 b) cmds1 hrec).mp hmem1
                refine ⟨?_, l, List.mem_cons_of_mem _ hl, hlid⟩
                rw [← hget]; exact hne
            · rintro ⟨hne, l, hl, hlid⟩
              rcases List.mem_cons.mp hl with rfl | hmem
              · rw [hid0] at hlid
                exact absurd (Option.some.inj hlid) hsame
              · refine List.mem_cons_of_mem _
                  ((ih (cacheSet cache id0 b) cmds1 hrec).mpr ⟨?_, l, hmem, hlid⟩)
                rw [hget]; exact hne

/-- If every configured light id already reads the pass polarity, the pass
issues no commands at all. -/
theorem setLightsState_all_cached_no_commands (b : Bool) (ok : String → Bool)
    (lights : List LightConfig) (cache c : Cache) (cmds : List Command)
    (h : setLightsState b ok lights cache = some (c, cmds))
    (hall : ∀ l ∈ lights, ∀ id, l.id = some id → cacheGet cache id = b) :
    cmds = [] := by
  induction lights generalizing cache cmds with
  | nil =>
    simp only [setLightsState, Option.some.injEq, Prod.mk.injEq] at h
    exact h.2.symm
  | cons l0 rest ih =>
    cases hid0 : l0.id with
    | none => rw [setLightsState_cons_none b ok l0 rest cache hid0] at h; cases h
    | some id0 =>
      have hc : cacheGet cache id0 = b :=
        hall l0 (List.mem_cons_self _ _) id0 hid0
      rw [setLightsState_cons_skip b ok l0 rest cache id0 hid0 hc] at h
      exact ih cache cmds h (fun l hl => hall l (List.mem_cons_of_mem _ hl))

/-- C1 counterexample: one light `L1`, empty cache, night pass, and a client
for which every command fails (`ok` constantly `false`).  The claim says a
failed command leaves the cached state unchanged (`false`), but the embedded
pass sets the cache for `L1` to `true` anyway. -/
theorem optimistic_cache_counterexample :
    (fun (_ : String) => false) "L1" = false ∧
    cacheGet [] "L1" = false ∧
    (setLightsState true (fun _ => false) [⟨some "L1", none⟩] []).map
        (fun r => (cacheGet r.1 "L1", r.2)) =
      some (true, [Command.turnOn "L1"]) := by
  refine ⟨rfl, rfl, ?_⟩
  simp [setLightsState, cacheGet, cacheSet]

/-- C1 (amended): after a command pass, the cached state of every configured
light reads the commanded value whether the issued command succeeded or
failed — the pass result is independent of the success oracle, so a failed
command is not retried on the next tick (the cache already reads the
commanded value and the light is skipped). -/
theorem cache_written_regardless_of_command_result (b : Bool)
    (ok1 ok2 : String → Bool) (lights : List LightConfig) (cache c : Cache)
    (cmds : List Command) (h : setLightsState b ok1 lights cache = some (c, cmds))
    (l : LightConfig) (hl : l ∈ lights) (id : String) (hid : l.id = some id) :
    setLightsState b ok1 lights cache = setLightsState b ok2 lights cache ∧
    cacheGet c id = b :=
  ⟨setLightsState_ok_irrelevant b ok1 ok2 lights cache,
   setLightsState_drives_to b ok1 lights cache c cmds h l hl id hid⟩

/-- Witness for the amended C1 at light `L1`, empty cache, all commands
failing versus all succeeding. -/
theorem cache_written_regardless_of_command_result_witness :
    setLightsState true (fun _ => false) [⟨some "L1", none⟩] [] =
      setLightsState true (fun _ => true) [⟨some "L1", none⟩] [] ∧
    cacheGet [("L1", true)] "L1" = true := by
  have h : setLightsState true (fun _ => false) [⟨some "L1", none⟩] [] =
      some ([("L1", true)], [Command.turnOn "L1"]) := by
    simp [setLightsState, cacheGet, cacheSet]
  exact cache_written_regardless_of_command_result true (fun _ => false)
    (fun _ => true) [⟨some "L1", none⟩] [] [("L1", true)] [Command.turnOn "L1"] h
    ⟨some "L1", none⟩ (List.mem_singleton.mpr rfl) "L1" rfl

/-- C5: within one pass, a light whose cache already reads the pass polarity
receives no command (night pass with cache `true` issues no `turnOn`, day
pass with cache `false` issues no `turnOff`); and a second pass of the same
polarity, run on the cache the first pass produced, issues no commands at
all — repeated ticks in an unchanged phase never repeat the initial
command. -/
theorem no_redundant_commands (b : Bool) (ok : String → Bool)
    (lights : List LightConfig) (cache c1 : Cache) (cmds1 : List Command)
    (h1 : setLightsState b ok lights cache = some (c1, cmds1)) :
    (∀ id, cacheGet cache id = b → commandFor b id ∉ cmds1) ∧
    (∀ c2 cmds2, setLightsState b ok lights c1 = some (c2, cmds2) → cmds2 = []) := by
  refine ⟨fun id hget => setLightsState_skip_no_command b ok lights cache c1 cmds1 id h1 hget,
    fun c2 cmds2 h2 => ?_⟩
  exact setLightsState_all_cached_no_commands b ok lights c1 c2 cmds2 h2
    (fun l hl id hid => setLightsState_drives_to b ok lights cache c1 cmds1 h1 l hl id hid)

/-- Witness for C5: night pass over `L1` from the empty cache, then a second
night pass on the resulting cache. -/
theorem no_redundant_commands_witness :
    (∀ id, cacheGet [("L2", true)] id = true →
      commandFor true id ∉ [Command.turnOn "L1"]) ∧
    (∀ c2 cmds2,
      setLightsState true (fun _ => true) [⟨some "L1", none⟩] [("L1", true), ("L2", true)] =
        some (c2, cmds2) → cmds2 = []) := by
  have h1 : setLightsState true (fun _ => true) [⟨some "L1", none⟩] [("L2", true)] =
      some ([("L1", true), ("L2", true)], [Command.turnOn "L1"]) := by
    simp [setLightsState, cacheGet, cacheSet]
  exact no_redundant_commands true (fun _ => true) [⟨some "L1", none⟩]
    [("L2", true)] [("L1", true), ("L2", true)] [Command.turnOn "L1"] h1

/-- The per-light loop of `(*Service).refreshLightStates` (service.go lines
125-132): fetch each configured light's ground-truth state; on success write
it into the cache, on error (`fetch id = none`) leave the entry unchanged
and continue with the next light.  A nil `ID` pointer panics (`none`). -/
def refreshLights (fetch : String → Option Bool) :
    List LightConfig → Cache → Option Cache
  | [], cache => some cache
  | l :: rest, cache =>
    match l.id with
    | none => none
    | some id =>
      match fetch id with
      | some v => refreshLights fetch rest (cacheSet cache id v)
      | none => refreshLights fetch rest cache

/-- Method `(*Service).refreshLightStates` (service.go lines 124-135): run the
per-light refresh loop, then set `lastLightStateRefresh` to the wall-clock
time at which the pass completes (`endTime`), unconditionally. -/
def refreshLightStates (fetch : String → Option Bool)
    (lights : List LightConfig) (cache : Cache) (endTime : Int) :
    Option (Cache × Int) :=
  (refreshLights fetch lights cache).map (fun c => (c, endTime))

theorem refreshLights_cons_nil_id (fetch : String → Option Bool)
    (l : LightConfig) (rest : List LightConfig) (cache : Cache)
    (hid : l.id = none) : refreshLights fetch (l :: rest) cache = none := by
  simp [refreshLights, hid]

theorem refreshLights_cons_fetch_ok (fetch : String → Option Bool)
    (l : LightConfig) (rest : List LightConfig) (cache : Cache) (id : String)
    (v : Bool) (hid : l.id = some id) (hf : fetch id = some v) :
    refreshLights fetch (l :: rest) cache =
      refreshLights fetch rest (cacheSet cache id v) := by
  simp [refreshLights, hid, hf]

theorem refreshLights_cons_fetch_err (fetch : String → Option Bool)
    (l : LightConfig) (rest : List LightConfig) (cache : Cache) (id : String)
    (hid : l.id = some id) (hf : fetch id = none) :
    refreshLights fetch (l :: rest) cache = refreshLights fetch rest cache := by
  simp [refreshLights, hid, hf]

/-- A light whose fetch fails keeps its cached entry across the whole
refresh pass. -/
theorem refreshLights_failed_fetch_unchanged (fetch : String → Option Bool)
    (lights : List LightConfig) (cache c : Cache)
    (h : refreshLights fetch lights cache = some c) (id : String)
    (hfi : fetch id = none) : cacheGet c id = cacheGet cache id := by
  induction lights generalizing cache with
  | nil =>
    simp only [refreshLights, Option.some.injEq] at h
    rw [h]
  | cons l rest ih =>
    cases hid : l.id with
    | none => rw [refreshLights_cons_nil_id fetch l rest cache hid] at h; cases h
    | some id0 =>
      cases hf : fetch id0 with
      | some v =>
        rw [refreshLights_cons_fetch_ok fetch l rest cache id0 v hid hf] at h
        have hne : id0 ≠ id := fun he => by rw [he, hfi] at hf; cases hf
        rw [ih (cacheSet cache id0 v) h, cacheGet_cacheSet_other _ _ _ _ hne]
      | none =>
        rw [refreshLights_cons_fetch_err fetch l rest cache id0 hid hf] at h
        exact ih cache h

/-- A cache entry already holding the fetched value survives the refresh
pass: every write to `id` writes the fetched value again. -/
theorem refreshLights_get_preserved (fetch : String → Option Bool)
    (lights : List LightConfig) (cache c : Cache)
    (h : refreshLights fetch lights cache = some c) (id : String) (v : Bool)
    (hfi : fetch id = some v) (hget : cacheGet cache id = v) :
    cacheGet c id = v := by
  induction lights generalizing cache with
  | nil =>
    simp only [refreshLights, Option.some.injEq] at h
    rw [← h]; exact hget
  | cons l rest ih =>
    cases hid : l.id with
    | none => rw [refreshLights_cons_nil_id fetch l rest cache hid] at h; cases h
    | some id0 =>
      cases hf : fetch id0 with
      | some v0 =>
        rw [refreshLights_cons_fetch_ok fetch l rest cache id0 v0 hid hf] at h
        refine ih (cacheSet cache id0 v0) h ?_
        by_cases hsame : id0 = id
        · subst hsame
          rw [cacheGet_cacheSet_same]
          rw [hfi] at hf
          exact (Option.some.inj hf).symm
        · rw [cacheGet_cacheSet_other _ _ _ _ hsame]; exact hget
      | none =>
        rw [refreshLights_cons_fetch_err fetch l rest cache id0 hid hf] at h
        exact ih cache h hget

/-- A configured light whose fetch succeeds ends the refresh pass cached at
the fetched ground-truth value: a failing light earlier in the
configuration does not abort the rest of the pass. -/
theorem refreshLights_fetched_value (fetch : String → Option Bool)
    (lights : List LightConfig) (cache c : Cache)
    (h : refreshLights fetch lights cache = some c)
    (l : LightConfig) (hl : l ∈ lights) (id : String) (v : Bool)
    (hid : l.id = some id) (hfi : fetch id = some v) : cacheGet c id = v := by
  induction lights generalizing cache with
  | nil => cases hl
  | cons l0 rest ih =>
    cases hid0 : l0.id with
    | none => rw [refreshLights_cons_nil_id fetch l0 rest cache hid0] at h; cases h
    | some id0 =>
      cases hf : fetch id0 with
      | some v0 =>
        rw [refreshLights_cons_fetch_ok fetch l0 rest cache id0 v0 hid0 hf] at h
        rcases List.mem_cons.mp hl with rfl | hmem
        · have hsame : id0 = id := by rw [hid0] at hid; exact Option.some.inj hid
          subst hsame
          refine refreshLights_get_preserved fetch rest _ c h id0 v hfi ?_
          rw [cacheGet_cacheSet_same]
          rw [hfi] at hf
          exact (Option.some.inj hf).symm
        · exact ih (cacheSet cache id0 v0) h hmem
      | none =>
        rw [refreshLights_cons_fetch_err fetch l0 rest cache id0 hid0 hf] at h
        rcases List.mem_cons.mp hl with rfl | hmem
        · rw [hid0] at hid
          have hsame : id0 = id := Option.some.inj hid
          rw [hsame] at hf
          rw [hf] at hfi
          cases hfi
        · exact ih cache h hmem

/-- A refresh pass that ran to completion saw a non-nil `ID` on every
configured light. -/
theorem refreshLights_ids_present (fetch : String → Option Bool)
    (lights : List LightConfig) (cache c : Cache)
    (h : refreshLights fetch lights cache = some c) :
    ∀ l ∈ lights, l.id ≠ none := by
  induction lights generalizing cache with
  | nil => intro l hl; cases hl
  | cons l0 rest ih =>
    cases hid0 : l0.id with
    | none => rw [refreshLights_cons_nil_id fetch l0 rest cache hid0] at h; cases h
    | some id0 =>
      intro l hl
      rcases List.mem_cons.mp hl with rfl | hmem
      · rw [hid0]; intro hx; cases hx
      · cases hf : fetch id0 with
        | some v0 =>
          rw [refreshLights_cons_fetch_ok fetch l0 rest cache id0 v0 hid0 hf] at h
          exact ih (cacheSet cache id0 v0) h l hmem
        | none =>
          rw [refreshLights_cons_fetch_err fetch l0 rest cache id0 hid0 hf] at h
          exact ih cache h l hmem

/-- With every `ID` present the refresh pass always completes, whatever the
per-light fetches return. -/
theorem refreshLights_total (fetch : String → Option Bool)
    (lights : List LightConfig) (cache : Cache)
    (hall : ∀ l ∈ lights, l.id ≠ none) :
    ∃ c, refreshLights fetch lights cache = some c := by
  induction lights generalizing cache with
  | nil => exact ⟨cache, rfl⟩
  | cons l0 rest ih =>
    cases hid0 : l0.id with
    | none => exact absurd hid0 (hall l0 (List.mem_cons_self _ _))
    | some id0 =>
      have hrest : ∀ l ∈ rest, l.id ≠ none :=
        fun l hl => hall l (List.mem_cons_of_mem _ hl)
      cases hf : fetch id0 with
      | some v0 =>
        obtain ⟨c, hc⟩ := ih (cacheSet cache id0 v0) hrest
        exact ⟨c, by rw [refreshLights_cons_fetch_ok fetch l0 rest cache id0 v0 hid0 hf]; exact hc⟩
      | none =>
        obtain ⟨c, hc⟩ := ih cache hrest
        exact ⟨c, by rw [refreshLights_cons_fetch_err fetch l0 rest cache id0 hid0 hf]; exact hc⟩

/-- C7: when a refresh pass completes, a light whose fetch failed keeps its
cached entry; a configured light whose fetch succeeded is cached at the
fetched value even when other lights failed; the last-refresh timestamp is
set to the pass completion time; and with the same configuration the pass
completes for every fetch oracle — even one that fails on every light. -/
theorem refresh_failure_frame (fetch : String → Option Bool)
    (lights : List LightConfig) (cache c2 : Cache) (endTime t2 : Int)
    (h : refreshLightStates fetch lights cache endTime = some (c2, t2)) :
    t2 = endTime ∧
    (∀ id, fetch id = none → cacheGet c2 id = cacheGet cache id) ∧
    (∀ l ∈ lights, ∀ id v, l.id = some id → fetch id = some v →
      cacheGet c2 id = v) ∧
    (∀ fetchAll : String → Option Bool,
      ∃ c3, refreshLightStates fetchAll lights cache endTime = some (c3, endTime)) := by
  unfold refreshLightStates at h
  cases hrl : refreshLights fetch lights cache with
  | none => rw [hrl] at h; cases h
  | some c1 =>
    rw [hrl] at h
    simp only [Option.map_some', Option.some.injEq, Prod.mk.injEq] at h
    obtain ⟨hc, ht⟩ := h
    subst hc
    refine ⟨ht.symm, ?_, ?_, ?_⟩
    · exact fun id hfi => refreshLights_failed_fetch_unchanged fetch lights cache c1 hrl id hfi
    · exact fun l hl id v hid hfi =>
        refreshLights_fetched_value fetch lights cache c1 hrl l hl id v hid hfi
    · intro fetchAll
      obtain ⟨c3, hc3⟩ := refreshLights_total fetchAll lights cache
        (refreshLights_ids_present fetch lights cache c1 hrl)
      exact ⟨c3, by unfold refreshLightStates; rw [hc3]; rfl⟩

/-- Witness for C7: one light `L1` cached on, every fetch failing, pass
completing at time `7`. -/
theorem refresh_failure_frame_witness :
    ((7 : Int) = 7) ∧
    (∀ id, (fun (_ : String) => (none : Option Bool)) id = none →
      cacheGet [("L1", true)] id = cacheGet [("L1", true)] id) ∧
    (∀ l ∈ [LightConfig.mk (some "L1") none], ∀ id v, l.id = some id →
      (fun (_ : String) => (none : Option Bool)) id = some v →
      cacheGet [("L1", true)] id = v) ∧
    (∀ fetchAll : String → Option Bool,
      ∃ c3, refreshLightStates fetchAll [LightConfig.mk (some "L1") none]
        [("L1", true)] 7 = some (c3, 7)) :=
  refresh_failure_frame (fun _ => none) [LightConfig.mk (some "L1") none]
    [("L1", true)] [("L1", true)] 7 7 rfl

/-- The mutable per-tick fields of `Service`. -/
structure AutomationState where
  lightStates : Cache
  lastLightStateRefresh : Int
deriving Repr, DecidableEq

/-- What one tick produced: the updated service fields, whether a cache
refresh ran this tick, and the commands issued to the Hue client. -/
structure TickResult where
  state : AutomationState
  refreshed : Bool
  commands : List Command
deriving Repr, DecidableEq

/-- Go `5 * time.Minute` in nanoseconds. -/
def fiveMinutes : Int := 300000000000

/-- Method `(*Service).runAutomation` (service.go lines 68-89): capture the tick
time `now`; if strictly more than five minutes passed since the last
refresh completed, run a full refresh whose completion instant is
`refreshEnd`; recompute sunrise and sunset; classify night; drive the
lights.  `none` models the nil-`ID` panic of either pass. -/
def runAutomation (now refreshEnd sunrise sunset : Int)
    (fetch : String → Option Bool) (ok : String → Bool)
    (lights : List LightConfig) (st : AutomationState) : Option TickResult :=
  (if fiveMinutes < now - st.lastLightStateRefresh then
      (refreshLights fetch lights st.lightStates).map
        (fun c => AutomationState.mk c refreshEnd)
    else some st).bind (fun st1 =>
    (setLightsState (isNight now sunrise sunset) ok lights st1.lightStates).map
      (fun p => TickResult.mk
        (AutomationState.mk p.1 st1.lastLightStateRefresh)
        (decide (fiveMinutes < now - st.lastLightStateRefresh)) p.2))

/-- A completed tick refreshed exactly when the five-minute threshold was
crossed, and its resulting last-refresh timestamp is the refresh completion
time when it refreshed and the old timestamp otherwise. -/
theorem runAutomation_refresh_char (now refreshEnd sunrise sunset : Int)
    (fetch : String → Option Bool) (ok : String → Bool)
    (lights : List LightConfig) (st : AutomationState) (r : TickResult)
    (h : runAutomation now refreshEnd sunrise sunset fetch ok lights st = some r) :
    r.refreshed = decide (fiveMinutes < now - st.lastLightStateRefresh) ∧
    r.state.lastLightStateRefresh =
      (if fiveMinutes < now - st.lastLightStateRefresh then refreshEnd
       else st.lastLightStateRefresh) := by
  unfold runAutomation at h
  by_cases hneed : fiveMinutes < now - st.lastLightStateRefresh
  · rw [if_pos hneed] at h
    cases hrl : refreshLights fetch lights st.lightStates with
    | none => rw [hrl] at h; cases h
    | some c1 =>
      rw [hrl] at h
      simp only [Option.map_some', Option.some_bind] at h
      cases hsl : setLightsState (isNight now sunrise sunset) ok lights c1 with
      | none => rw [hsl] at h; cases h
      | some p =>
        rw [hsl] at h
        simp only [Option.map_some', Option.some.injEq] at h
        rw [← h]
        simp [hneed]
  · rw [if_neg hneed] at h
    simp only [Option.some_bind] at h
    cases hsl : setLightsState (isNight now sunrise sunset) ok lights st.lightStates with
    | none => rw [hsl] at h; cases h
    | some p =>
      rw [hsl] at h
      simp only [Option.map_some', Option.some.injEq] at h
      rw [← h]
      simp [hneed]

/-- C6: a completed tick refreshes the cache exactly when strictly more than
five minutes of wall clock passed since the previous refresh completed;
consequently, of two ticks less than five minutes apart (the first one's
refresh completing no earlier than its tick time), at most one refreshes:
if the first tick refreshed, the second does not. -/
theorem refresh_cadence (t1 e1 t2 e2 sunrise sunset : Int)
    (fetch : String → Option Bool) (ok : String → Bool)
    (lights : List LightConfig) (st : AutomationState) (r1 r2 : TickResult)
    (h1 : runAutomation t1 e1 sunrise sunset fetch ok lights st = some r1)
    (h2 : runAutomation t2 e2 sunrise sunset fetch ok lights r1.state = some r2)
    (hgap : t2 - t1 < fiveMinutes) (hend : t1 ≤ e1) :
    (r1.refreshed = true ↔ fiveMinutes < t1 - st.lastLightStateRefresh) ∧
    (r1.refreshed = true → r2.refreshed = false) := by
  obtain ⟨hr1, hl1⟩ :=
    runAutomation_refresh_char t1 e1 sunrise sunset fetch ok lights st r1 h1
  obtain ⟨hr2, hl2⟩ :=
    runAutomation_refresh_char t2 e2 sunrise sunset fetch ok lights r1.state r2 h2
  constructor
  · rw [hr1]; exact decide_eq_true_iff
  · intro href
    have hneed1 : fiveMinutes < t1 - st.lastLightStateRefresh := by
      rw [hr1] at href; exact of_decide_eq_true href
    have he : r1.state.lastLightStateRefresh = e1 := by
      rw [hl1, if_pos hneed1]
    rw [hr2, he]
    apply decide_eq_false
    omega

/-- Witness for C6: empty light list, last refresh at `0`, first tick just
past the threshold, second tick one nanosecond later. -/
theorem refresh_cadence_witness :
    (TickResult.refreshed ⟨⟨[], 300000000001⟩, true, []⟩ = true ↔
      fiveMinutes < (300000000001 : Int) - 0) ∧
    (TickResult.refreshed ⟨⟨[], 300000000001⟩, true, []⟩ = true →
      TickResult.refreshed ⟨⟨[], 300000000001⟩, false, []⟩ = false) :=
  refresh_cadence 300000000001 300000000001 300000000002 300000000002 0 0
    (fun _ => none) (fun _ => true) [] ⟨[], 0⟩
    ⟨⟨[], 300000000001⟩, true, []⟩ ⟨⟨[], 300000000001⟩, false, []⟩
    (by decide) (by decide) (by decide) (by decide)

/-- The control fields of `Service` (service.go lines 13-21): whether the
`ticker` pointer is non-nil and whether the `tickerStop` channel has been
closed, plus an instrumentation count of spawned
`runAutomationTickerLoop` goroutines that have not yet returned. -/
structure ServiceControl where
  tickerActive : Bool
  tickerStopClosed : Bool
  activeLoopTasks : Nat
deriving Repr, DecidableEq

/-- Constructor `NewService` (service.go lines 23-32): nil ticker, open `tickerStop`
channel, no loop goroutine. -/
def newService : ServiceControl := ⟨false, false, 0⟩

/-- Method `(*Service).Start` (service.go lines 34-46): when the ticker is already
non-nil it only logs a warning and returns nil, changing nothing and
spawning nothing; otherwise it creates the ticker and spawns one
`runAutomationTickerLoop` goroutine.  `Start` always returns a nil
error. -/
def ServiceControl.start (s : ServiceControl) : ServiceControl :=
  if s.tickerActive then s
  else ⟨true, s.tickerStopClosed, s.activeLoopTasks + 1⟩

/-- Method `(*Service).Stop` (service.go lines 143-156): with a nil ticker it only
logs a warning and returns; otherwise it stops and clears the ticker and
closes `tickerStop`.  Closing an already-closed Go channel panics,
modelled by `none`. -/
def ServiceControl.stop (s : ServiceControl) : Option ServiceControl :=
  if !s.tickerActive then some s
  else if s.tickerStopClosed then none
  else some ⟨false, true, s.activeLoopTasks⟩

/-- Whenever `Stop` returns (does not panic), the ticker is nil
afterwards or was nil already — the service is not running. -/
theorem stop_leaves_inactive (s s1 : ServiceControl) (h : s.stop = some s1)
    (hact : s.tickerActive = true) : s1.tickerActive = false := by
  unfold ServiceControl.stop at h
  rw [hact] at h
  by_cases hcl : s.tickerStopClosed
  · simp [hcl] at h
  · simp only [hcl, Bool.not_true, Bool.false_eq_true, if_false,
      if_neg, Option.some.injEq] at h
    rw [← h]

/-- C8: calling `start()` while running and `stop()` while stopped are
no-ops that return successfully; `start()` twice in a row spawns exactly
one loop goroutine; `stop()` twice in a row from a normal run does not
panic: the second call is a no-op. -/
theorem wrong_state_start_stop_safe (s : ServiceControl) :
    (s.tickerActive = true → s.start = s) ∧
    (s.tickerActive = false →
      (s.start.start).activeLoopTasks = s.activeLoopTasks + 1 ∧
      s.start.tickerActive = true) ∧
    (s.tickerActive = false → s.stop = some s) ∧
    (s.tickerStopClosed = false → ∃ w, s.stop = some w ∧ w.stop = some w) := by
  refine ⟨?_, ?_, ?_, ?_⟩
  · intro h
    simp [ServiceControl.start, h]
  · intro h
    simp [ServiceControl.start, h]
  · intro h
    simp [ServiceControl.stop, h]
  · intro hcl
    by_cases hact : s.tickerActive
    · refine ⟨⟨false, true, s.activeLoopTasks⟩, ?_, ?_⟩
      · simp [ServiceControl.stop, hact, hcl]
      · simp [ServiceControl.stop]
    · refine ⟨s, ?_, ?_⟩ <;> simp [ServiceControl.stop, hact]

/-- Witness for C8 at a freshly constructed service and at the same service
once started. -/
theorem wrong_state_start_stop_safe_witness :
    ((newService.start.start).activeLoopTasks = newService.activeLoopTasks + 1 ∧
      newService.start.tickerActive = true) ∧
    (∃ w, newService.start.stop = some w ∧ w.stop = some w) :=
  ⟨(wrong_state_start_stop_safe newService).2.1 rfl,
   (wrong_state_start_stop_safe newService.start).2.2.2 rfl⟩

/-- One wakeup of the `select` in `runAutomationTickerLoop` (service.go
lines 55-63): either the ticker channel fired or the receive on
`tickerStop` completed. -/
inductive LoopEvent where
  | tick
  | stopRecv
deriving Repr, DecidableEq

/-- The select loop of `runAutomationTickerLoop`: process tick events until
the stop receive completes; returns how many `runAutomation` invocations
ran and whether the loop exited through the stop branch. -/
def tickerLoopTrace : List LoopEvent → Nat × Bool
  | [] => (0, false)
  | LoopEvent.tick :: rest =>
    let r := tickerLoopTrace rest
    (r.1 + 1, r.2)
  | LoopEvent.stopRecv :: _ => (0, true)

/-- Go channel semantics at loop entry: a receive from an already-closed
`tickerStop` channel is immediately ready, while the freshly created
1-second ticker has not yet fired, so the first event the select delivers
is the stop receive. -/
def firstWakeupIsStop (events : List LoopEvent) : Prop :=
  events.head? = some LoopEvent.stopRecv

/-- C9: a completed `stop()` leaves `tickerStop` closed and it cannot be
reopened; a subsequent `start()` marks the service running and spawns a
fresh loop goroutine, but every event sequence that goroutine can observe
starts with the closed-channel receive, so it exits through the stop branch
having processed zero ticks. -/
theorem not_restartable_after_stop (s s1 : ServiceControl)
    (hact : s.tickerActive = true) (hopen : s.tickerStopClosed = false)
    (hstop : s.stop = some s1) (events : List LoopEvent)
    (hadm : firstWakeupIsStop events) :
    s1.tickerStopClosed = true ∧
    s1.start.tickerActive = true ∧
    s1.start.tickerStopClosed = true ∧
    s1.start.activeLoopTasks = s1.activeLoopTasks + 1 ∧
    tickerLoopTrace events = (0, true) := by
  unfold ServiceControl.stop at hstop
  rw [hact] at hstop
  simp only [Bool.not_true, Bool.false_eq_true, if_false, hopen,
    Option.some.injEq] at hstop
  obtain rfl := hstop.symm
  refine ⟨rfl, rfl, rfl, rfl, ?_⟩
  cases events with
  | nil => cases hadm
  | cons e rest =>
    cases e with
    | tick => cases hadm
    | stopRecv => rfl

/-- Witness for C9: stop a started service, then observe a schedule whose
first wakeup is the closed-channel receive followed by a tick. -/
theorem not_restartable_after_stop_witness :
    ServiceControl.tickerStopClosed ⟨false, true, 1⟩ = true ∧
    (ServiceControl.start ⟨false, true, 1⟩).tickerActive = true ∧
    (ServiceControl.start ⟨false, true, 1⟩).tickerStopClosed = true ∧
    (ServiceControl.start ⟨false, true, 1⟩).activeLoopTasks =
      ServiceControl.activeLoopTasks ⟨false, true, 1⟩ + 1 ∧
    tickerLoopTrace [LoopEvent.stopRecv, LoopEvent.tick] = (0, true) :=
  not_restartable_after_stop ⟨true, false, 1⟩ ⟨false, true, 1⟩ rfl rfl rfl
    [LoopEvent.stopRecv, LoopEvent.tick] rfl

/-- Method `(*Service).StopAndTurnOffLights` (service.go lines 137-141): run `Stop()`,
then one `setLightsState(false)` pass over the cached states; the method
always returns a nil error. -/
def stopAndTurnOffLights (ok : String → Bool) (lights : List LightConfig)
    (ctl : ServiceControl) (cache : Cache) :
    Option (ServiceControl × Cache × List Command) :=
  (ctl.stop).bind (fun ctl1 =>
    (setLightsState false ok lights cache).map (fun p => (ctl1, p.1, p.2)))

/-- The ground truth assumed in the C2 counterexample: every light on the
bridge is actually on. -/
def bridgeAllOn : String → Bool := fun _ => true

/-- C2 counterexample: a running service with one configured light `L1`
whose actual bridge state is on but whose cached state reads `false` (a
stale or never-populated cache); `stopAndTurnOffLights` completes yet
issues an empty command list, so no turn-off is issued to a light whose
actual state is on. -/
theorem stop_turns_off_all_counterexample :
    bridgeAllOn "L1" = true ∧
    cacheGet [] "L1" = false ∧
    (stopAndTurnOffLights (fun _ => true) [⟨some "L1", none⟩]
        ⟨true, false, 1⟩ []).map (fun r => r.2.2) = some [] := by
  refine ⟨rfl, rfl, ?_⟩
  simp [stopAndTurnOffLights, ServiceControl.stop, setLightsState, cacheGet]

/-- C2 (amended): `stopAndTurnOffLights` calls `stop()` and then makes one
best-effort pass that consults the cache: it issues a turn-off exactly to
the configured lights whose cached state is `true`, independently of which
commands succeed, and skips every light cached `false` — even one whose
actual state is on.  All lights are guaranteed off only when the cache is
accurate for every actually-on light. -/
theorem stop_turn_off_follows_cache (ok1 ok2 : String → Bool)
    (lights : List LightConfig) (ctl ctl1 : ServiceControl) (cache c : Cache)
    (cmds : List Command)
    (h : stopAndTurnOffLights ok1 lights ctl cache = some (ctl1, c, cmds)) :
    (ctl.tickerActive = true → ctl1.tickerActive = false) ∧
    (∀ id, Command.turnOff id ∈ cmds ↔
      (cacheGet cache id = true ∧ ∃ l ∈ lights, l.id = some id)) ∧
    stopAndTurnOffLights ok1 lights ctl cache =
      stopAndTurnOffLights ok2 lights ctl cache := by
  unfold stopAndTurnOffLights at h
  cases hstop : ctl.stop with
  | none => rw [hstop] at h; cases h
  | some ctl1a =>
    rw [hstop] at h
    simp only [Option.some_bind] at h
    cases hsl : setLightsState false ok1 lights cache with
    | none => rw [hsl] at h; cases h
    | some p =>
      rw [hsl] at h
      obtain ⟨c1, cmds1⟩ := p
      simp only [Option.map_some', Option.some.injEq, Prod.mk.injEq] at h
      obtain ⟨rfl, rfl, rfl⟩ := h
      refine ⟨fun hact => stop_leaves_inactive ctl ctl1a hstop hact, ?_, ?_⟩
      · intro id
        have hiff := setLightsState_command_iff false ok1 lights cache c1 cmds1 id hsl
        rw [show commandFor false id = Command.turnOff id from rfl] at hiff
        rw [hiff]
        constructor
        · rintro ⟨hne, hex⟩
          exact ⟨Bool.not_eq_false _ ▸ (by simpa using hne), hex⟩
        · rintro ⟨htrue, hex⟩
          exact ⟨by simp [htrue], hex⟩
      · unfold stopAndTurnOffLights
        rw [setLightsState_ok_irrelevant false ok1 ok2 lights cache]

/-- Witness for the amended C2: a running service, `L1` cached on. -/
theorem stop_turn_off_follows_cache_witness :
    ((ServiceControl.tickerActive ⟨true, false, 1⟩ = true →
      ServiceControl.tickerActive ⟨false, true, 1⟩ = false) ∧
    (∀ id, Command.turnOff id ∈ [Command.turnOff "L1"] ↔
      (cacheGet [("L1", true)] id = true ∧
        ∃ l ∈ [LightConfig.mk (some "L1") none], l.id = some id)) ∧
    stopAndTurnOffLights (fun _ => false) [LightConfig.mk (some "L1") none]
        ⟨true, false, 1⟩ [("L1", true)] =
      stopAndTurnOffLights (fun _ => true) [LightConfig.mk (some "L1") none]
        ⟨true, false, 1⟩ [("L1", true)]) :=
  stop_turn_off_follows_cache (fun _ => false) (fun _ => true)
    [LightConfig.mk (some "L1") none] ⟨true, false, 1⟩ ⟨false, true, 1⟩
    [("L1", true)] [("L1", false), ("L1", true)] [Command.turnOff "L1"]
    (by simp [stopAndTurnOffLights, ServiceControl.stop, setLightsState,
      cacheGet, cacheSet])

/-- The fixed shutdown payload.  Modelled from the spec: the events
package's constants file (defining `EVENT_TYPE_SHUTDOWN` and the socket
path) is not among the repository sources; the spec fixes the payload as
the single message `"shutdown"`. -/
def EVENT_TYPE_SHUTDOWN : String := "shutdown"

/-- One `Accept` outcome observed by the event-bus goroutine (event-bus.go
lines 44-59): the listener reports `net.ErrClosed`, some other accept
error, or a connection whose bounded first read yields `payload`. -/
inductive AcceptEvent where
  | errClosed
  | errOther
  | conn (payload : String)
deriving Repr, DecidableEq

/-- Observable actions of the shutdown sequence, in source order:
`Stop()` on the automation loop and the `setLightsState(false)` pass — the
two phases of the single `StopAndTurnOffLights()` invocation
(event-bus.go line 62) — then the send on the process-level stop channel
(line 68). -/
inductive BusAction where
  | stopLoop
  | turnOffLights
  | notifyMain
deriving Repr, DecidableEq

/-- The accept loop of `(*ExternalEventService).Start` (event-bus.go lines
43-77): `net.ErrClosed` exits the loop silently; any other accept error is
logged and the loop continues; a connection whose payload differs from the
shutdown event is ignored and the loop continues; the shutdown payload
triggers `StopAndTurnOffLights`, one send on the stop channel when one was
supplied at construction, and `return` — no later event is serviced. -/
def acceptLoop (stopChanPresent : Bool) : List AcceptEvent → List BusAction
  | [] => []
  | AcceptEvent.errClosed :: _ => []
  | AcceptEvent.errOther :: rest => acceptLoop stopChanPresent rest
  | AcceptEvent.conn payload :: rest =>
    if payload = EVENT_TYPE_SHUTDOWN then
      BusAction.stopLoop :: BusAction.turnOffLights ::
        (if stopChanPresent then [BusAction.notifyMain] else [])
    else acceptLoop stopChanPresent rest

/-- C3: with a stop channel supplied (as the application wires it), any
accept sequence of transient errors and non-shutdown connections followed
by the shutdown payload produces exactly the trace stop loop, turn off
lights, notify main: one `stopAndTurnOffLights` invocation and one stop
signal, in that order, and — the result not depending on `post` — the loop
exits without servicing any later request. -/
theorem shutdown_serviced_exactly_once (pre post : List AcceptEvent)
    (hpre : ∀ e ∈ pre, e ≠ AcceptEvent.errClosed ∧
      e ≠ AcceptEvent.conn EVENT_TYPE_SHUTDOWN) :
    acceptLoop true (pre ++ AcceptEvent.conn EVENT_TYPE_SHUTDOWN :: post) =
      [BusAction.stopLoop, BusAction.turnOffLights, BusAction.notifyMain] := by
  induction pre with
  | nil => simp [acceptLoop]
  | cons e rest ih =>
    obtain ⟨hnc, hns⟩ := hpre e (List.mem_cons_self _ _)
    have hrest : ∀ x ∈ rest, x ≠ AcceptEvent.errClosed ∧
        x ≠ AcceptEvent.conn EVENT_TYPE_SHUTDOWN :=
      fun x hx => hpre x (List.mem_cons_of_mem _ hx)
    cases e with
    | errClosed => exact absurd rfl hnc
    | errOther => simpa [acceptLoop] using ih hrest
    | conn p =>
      have hp : p ≠ EVENT_TYPE_SHUTDOWN := fun he => hns (by rw [he])
      simpa [acceptLoop, hp] using ih hrest

/-- Witness for C3: a transient accept error and a non-shutdown connection
before the shutdown payload, a further connection attempt after it. -/
theorem shutdown_serviced_exactly_once_witness :
    acceptLoop true ([AcceptEvent.errOther, AcceptEvent.conn "ping"] ++
        AcceptEvent.conn EVENT_TYPE_SHUTDOWN ::
          [AcceptEvent.conn EVENT_TYPE_SHUTDOWN]) =
      [BusAction.stopLoop, BusAction.turnOffLights, BusAction.notifyMain] :=
  shutdown_serviced_exactly_once [AcceptEvent.errOther, AcceptEvent.conn "ping"]
    [AcceptEvent.conn EVENT_TYPE_SHUTDOWN] (by decide)

/-- A pass over a configuration containing a nil-`ID` light panics. -/
theorem setLightsState_none_of_mem (b : Bool) (ok : String → Bool)
    (lights : List LightConfig) (l : LightConfig) (hl : l ∈ lights)
    (hid : l.id = none) :
    ∀ cache, setLightsState b ok lights cache = none := by
  induction lights with
  | nil => cases hl
  | cons l0 rest ih =>
    intro cache
    rcases List.mem_cons.mp hl with rfl | hmem
    · exact setLightsState_cons_none b ok _ rest cache hid
    · cases hid0 : l0.id with
      | none => exact setLightsState_cons_none b ok l0 rest cache hid0
      | some id0 =>
        by_cases hc : cacheGet cache id0 = b
        · rw [setLightsState_cons_skip b ok l0 rest cache id0 hid0 hc]
          exact ih hmem cache
        · exact setLightsState_cons_cmd_none b ok l0 rest cache id0 hid0 hc
            (ih hmem (cacheSet cache id0 b))

/-- A refresh over a configuration containing a nil-`ID` light panics. -/
theorem refreshLights_none_of_mem (fetch : String → Option Bool)
    (lights : List LightConfig) (l : LightConfig) (hl : l ∈ lights)
    (hid : l.id = none) :
    ∀ cache, refreshLights fetch lights cache = none := by
  induction lights with
  | nil => cases hl
  | cons l0 rest ih =>
    intro cache
    rcases List.mem_cons.mp hl with rfl | hmem
    · exact refreshLights_cons_nil_id fetch _ rest cache hid
    · cases hid0 : l0.id with
      | none => exact refreshLights_cons_nil_id fetch l0 rest cache hid0
      | some id0 =>
        cases hf : fetch id0 with
        | some v0 =>
          rw [refreshLights_cons_fetch_ok fetch l0 rest cache id0 v0 hid0 hf]
          exact ih hmem (cacheSet cache id0 v0)
        | none =>
          rw [refreshLights_cons_fetch_err fetch l0 rest cache id0 hid0 hf]
          exact ih hmem cache

/-- C10: the configuration model accepts a light carrying only a `name`
(`validate` requires merely `ID` or `Name`), yet every command pass, every
refresh pass and hence every tick over a configuration containing such a
light dereferences its nil `ID` pointer and panics, whatever the cache,
the oracles or the tick instant. -/
theorem name_only_light_cannot_be_automated (lights : List LightConfig)
    (l : LightConfig) (hl : l ∈ lights) (hid : l.id = none) :
    Config.validate ⟨⟨52.5, 13.4⟩, [⟨none, some "lamp"⟩]⟩ = Except.ok () ∧
    (∀ b ok cache, setLightsState b ok lights cache = none) ∧
    (∀ fetch cache, refreshLights fetch lights cache = none) ∧
    (∀ now refreshEnd sunrise sunset fetch ok st,
      runAutomation now refreshEnd sunrise sunset fetch ok lights st = none) := by
  refine ⟨by norm_num [Config.validate], fun b ok cache => setLightsState_none_of_mem b ok lights l hl hid cache,
    fun fetch cache => refreshLights_none_of_mem fetch lights l hl hid cache, ?_⟩
  intro now refreshEnd sunrise sunset fetch ok st
  unfold runAutomation
  by_cases hneed : fiveMinutes < now - st.lastLightStateRefresh
  · rw [if_pos hneed, refreshLights_none_of_mem fetch lights l hl hid st.lightStates]
    rfl
  · rw [if_neg hneed]
    simp only [Option.some_bind]
    rw [setLightsState_none_of_mem (isNight now sunrise sunset) ok lights l hl hid
      st.lightStates]
    rfl

/-- Witness for C10 at the single name-only light `lamp`. -/
theorem name_only_light_cannot_be_automated_witness :
    Config.validate ⟨⟨52.5, 13.4⟩, [⟨none, some "lamp"⟩]⟩ = Except.ok () ∧
    (∀ b ok cache,
      setLightsState b ok [LightConfig.mk none (some "lamp")] cache = none) ∧
    (∀ fetch cache,
      refreshLights fetch [LightConfig.mk none (some "lamp")] cache = none) ∧
    (∀ now refreshEnd sunrise sunset fetch ok st,
      runAutomation now refreshEnd sunrise sunset fetch ok
        [LightConfig.mk none (some "lamp")] st = none) :=
  name_only_light_cannot_be_automated [LightConfig.mk none (some "lamp")]
    (LightConfig.mk none (some "lamp")) (List.mem_singleton.mpr rfl) rfl

end HueLighter
